import Mathlib

/-
  Verification development for the claws daemon (avatag-host/claws).

  The development shallowly embeds the parts of the program that the
  verified properties touch: the jailed filesystem (path resolution,
  disk accounting, file operations), the configuration sync logic, the
  container exit-state adapter, the boot reconciliation decision logic,
  the power endpoint suspension check, the server deletion sequence,
  the server loader guard, and the environment variable assembly.

  The filesystem implementation itself is not part of the available Go
  sources (only its test file is), so those definitions are modelled
  from the specification document, section 4.1, and are checked against
  the expectations recorded in filesystem_test.go. Everything else is
  translated directly from the Go sources.
-/

namespace Claws

/-- Absolute filesystem paths are modelled as lists of components. -/
abbrev Path := List String

/-- Modelled from the spec: a node of the on-disk tree for the jailed
filesystem (server/filesystem is missing from the sources; only its
tests exist). A symlink carries its target as an absolute, already
canonical path: the model assumes link targets are not themselves
symlinks and contain no dot components. -/
inductive Node where
  | file (size : Nat)
  | dir
  | symlink (target : Path)
deriving DecidableEq

/-- Modelled from the spec: the visible state of the disk, a finite map
from absolute paths to nodes, represented as an association list. -/
structure FS where
  entries : List (Path × Node)
deriving DecidableEq

/-- Look a path up in the tree. -/
def FS.lookup (fs : FS) (p : Path) : Option Node :=
  (fs.entries.find? (fun e => e.1 == p)).map (fun e => e.2)

/-- Insert or replace the node stored at a path. -/
def FS.insertNode (fs : FS) (p : Path) (nd : Node) : FS :=
  ⟨(p, nd) :: fs.entries.filter (fun e => !(e.1 == p))⟩

/-- Boolean test that base is an initial segment of p, used both for the
safe-path containment check (is the resolved path inside the root) and
for subtree selection. -/
def underPath (base p : Path) : Bool :=
  p.take base.length == base

/-- Split a raw path string on the slash separator, mirroring the Go
path splitting done by filepath.Join and filepath.Clean. Written as a
structural recursion over characters so it evaluates inside the kernel. -/
def splitComps : List Char → List Char → List String
  | [], acc => [acc.reverse.asString]
  | c :: rest, acc =>
    if c = '/' then acc.reverse.asString :: splitComps rest []
    else splitComps rest (c :: acc)

/-- Modelled from the spec: step 1 and 2 of the safe-path algorithm
joined with the instance root, exactly as filepath.Clean applied to
filepath.Join(root, p): empty and dot components vanish, dot-dot pops
one component (possibly out of the root, never above the filesystem
root), and everything else is appended. -/
def joinClean (R : Path) (p : String) : Path :=
  (splitComps p.toList []).foldl
    (fun acc c =>
      if c = "" ∨ c = "." then acc
      else if c = ".." then acc.dropLast
      else acc ++ [c]) R

/-- Modelled from the spec: step 3 of the safe-path algorithm. Walk the
cleaned path outward, evaluating a symbolic link at each component that
exists; once a component does not exist the remainder is accepted as a
path to be created under the last resolved component. -/
def walkResolve (fs : FS) : Path → List String → Path
  | acc, [] => acc
  | acc, c :: rest =>
    match fs.lookup (acc ++ [c]) with
    | some (Node.symlink t) => walkResolve fs t rest
    | some _ => walkResolve fs (acc ++ [c]) rest
    | none => acc ++ (c :: rest)

/-- Modelled from the spec: the safe-path function of section 4.1.
Returns the canonical absolute path when it is the root or one of its
descendants, and nothing (the bad-path-resolution failure) otherwise. -/
def SafePath (R : Path) (fs : FS) (p : String) : Option Path :=
  let q := joinClean R p
  let r := walkResolve fs [] q
  if underPath R r then some r else none

/-- Modelled from the spec: the resolution used by delete. The parent
of the target is resolved through symlinks but the final component is
not dereferenced, so that deleting a symlink removes the link itself
and never touches the target (spec section 4.1, delete row, and the
symlink scenario of the test file). -/
def safePathNoFollowLink (R : Path) (fs : FS) (p : String) : Option Path :=
  let q := joinClean R p
  match q.getLast? with
  | none => none
  | some c =>
    let r := walkResolve fs [] q.dropLast ++ [c]
    if underPath R r then some r else none

/-- Error kinds of the filesystem layer, named after the sentinel
errors that filesystem_test.go checks for. -/
inductive FError where
  | badPathResolution
  | notExist
  | fileExists
  | isDirectory
  | notEnoughDiskSpace
  | cannotDeleteRoot
deriving DecidableEq

/-- Modelled from the spec: the per-instance jailed filesystem state,
holding the root path, the visible tree, and the two int64 counters of
the Go struct. -/
structure Filesystem where
  root : Path
  fs : FS
  diskUsed : Int
  diskLimit : Int
deriving DecidableEq

deriving instance DecidableEq for Except

/-- Create the missing parent directories of a target path inside the
root, as MkdirAll does for write and rename. -/
def mkParents (R q : Path) (fs : FS) : FS :=
  ((List.range q.length).map (fun i => q.take i)).foldl
    (fun f t => if underPath R t && (f.lookup t).isNone then f.insertNode t Node.dir else f) fs

/-- Size of the file currently stored at a resolved path, zero when the
path is absent or not a regular file. -/
def oldSizeAt (s : Filesystem) (q : Path) : Nat :=
  match s.fs.lookup q with
  | some (Node.file m) => m
  | _ => 0

/-- Modelled from the spec: Readfile resolves through safe-path, fails
on a directory or a missing target, and otherwise streams the file (the
model returns its size in place of the byte stream). -/
def Readfile (s : Filesystem) (p : String) : Except FError Nat :=
  match SafePath s.root s.fs p with
  | none => Except.error FError.badPathResolution
  | some q =>
    match s.fs.lookup q with
    | some (Node.file n) => Except.ok n
    | some Node.dir => Except.error FError.isDirectory
    | _ => Except.error FError.notExist

/-- Modelled from the spec: Writefile resolves through safe-path,
rejects a write over a directory, rejects the write with the
not-enough-disk-space failure when a positive disk limit would be
exceeded by the size delta, and otherwise creates missing parents,
truncates the file to the new content, and moves the disk counter by
exactly the delta. A failed write returns no new state, so the counter
of the input state is untouched. -/
def Writefile (s : Filesystem) (p : String) (n : Nat) : Except FError Filesystem :=
  match SafePath s.root s.fs p with
  | none => Except.error FError.badPathResolution
  | some q =>
    if s.fs.lookup q = some Node.dir then Except.error FError.isDirectory
    else if 0 < s.diskLimit ∧ s.diskLimit < s.diskUsed + (n : Int) - (oldSizeAt s q : Int) then
      Except.error FError.notEnoughDiskSpace
    else
      Except.ok { s with fs := (mkParents s.root q s.fs).insertNode q (Node.file n),
                         diskUsed := s.diskUsed + (n : Int) - (oldSizeAt s q : Int) }

/-- Modelled from the spec: CreateDirectory resolves parents slash name
through safe-path and creates the directory recursively, with no effect
on the disk counter. -/
def CreateDirectory (s : Filesystem) (name parents : String) : Except FError Filesystem :=
  match SafePath s.root s.fs (parents ++ "/" ++ name) with
  | none => Except.error FError.badPathResolution
  | some q => Except.ok { s with fs := (mkParents s.root q s.fs).insertNode q Node.dir }

/-- Rebase every entry below the source path onto the target path. -/
def moveSubtree (fs : FS) (qf qt : Path) : FS :=
  ⟨fs.entries.map (fun e => if underPath qf e.1 then (qt ++ e.1.drop qf.length, e.2) else e)⟩

/-- Modelled from the spec: Rename resolves both endpoints through
safe-path, fails with the exists error when the target exists or is the
root, fails with not-exist when the source is missing, and otherwise
creates missing parents of the target and moves the subtree. -/
def Rename (s : Filesystem) (pf pt : String) : Except FError Filesystem :=
  match SafePath s.root s.fs pf, SafePath s.root s.fs pt with
  | none, _ => Except.error FError.badPathResolution
  | some _, none => Except.error FError.badPathResolution
  | some qf, some qt =>
    if qt = s.root ∨ (s.fs.lookup qt).isSome then Except.error FError.fileExists
    else if (s.fs.lookup qf).isNone then Except.error FError.notExist
    else Except.ok { s with fs := moveSubtree (mkParents s.root qt.dropLast s.fs) qf qt }

/-- Split a file name into stem and extension at the final dot, as
filepath.Ext does; the extension includes the dot and is empty when the
name has no dot. -/
def splitExt (fname : String) : String × String :=
  let cs := fname.toList
  if cs.contains '.' then
    let rev := cs.reverse
    let i := rev.indexOf '.'
    (((rev.drop (i + 1)).reverse).asString, ('.' :: (rev.take i).reverse).asString)
  else (fname, "")

/-- Candidate names for a copy: the bare copy suffix first, then the
numbered suffixes starting at one. -/
def candName (stem ext : String) : Nat → String
  | 0 => stem ++ " copy" ++ ext
  | Nat.succ k => stem ++ " copy " ++ toString (k + 1) ++ ext

/-- Fuel-bounded search for the first free candidate name; the fuel is
always chosen larger than the number of entries, so in any reachable
state a free candidate is found before the fuel runs out. -/
def copyNameGo (fs : FS) (d : Path) (stem ext : String) : Nat → Nat → String
  | 0, i => candName stem ext i
  | Nat.succ fuel, i =>
    if fs.lookup (d ++ [candName stem ext i]) = none then candName stem ext i
    else copyNameGo fs d stem ext fuel (i + 1)

/-- First free copy name in a directory for a given stem and extension. -/
def copyName (fs : FS) (d : Path) (stem ext : String) : String :=
  copyNameGo fs d stem ext (fs.entries.length + 2) 0

/-- Modelled from the spec: Copy resolves through safe-path, only
accepts regular files, enforces the disk quota, stores the copy under
the first free candidate name in the same directory, and adds the file
size to the disk counter. -/
def Copy (s : Filesystem) (p : String) : Except FError Filesystem :=
  match SafePath s.root s.fs p with
  | none => Except.error FError.badPathResolution
  | some q =>
    match s.fs.lookup q with
    | some (Node.file n) =>
      if 0 < s.diskLimit ∧ s.diskLimit < s.diskUsed + (n : Int) then
        Except.error FError.notEnoughDiskSpace
      else
        let d := q.dropLast
        let se := splitExt ((q.getLast?).getD "")
        Except.ok { s with fs := s.fs.insertNode (d ++ [copyName s.fs d se.1 se.2]) (Node.file n),
                           diskUsed := s.diskUsed + (n : Int) }
    | _ => Except.error FError.notExist

/-- Modelled from the spec: Chown resolves through safe-path and sets
ownership recursively; ownership itself is not part of the model, so a
successful resolution returns the unit value. -/
def Chown (s : Filesystem) (p : String) : Except FError Unit :=
  match SafePath s.root s.fs p with
  | none => Except.error FError.badPathResolution
  | some _ => Except.ok ()

/-- Apparent size of a node: file size for a regular file, zero for a
directory and for a symlink. -/
def nodeSize : Node → Nat
  | Node.file n => n
  | _ => 0

/-- Total apparent size of all entries at or below a path. -/
def subtreeSize (fs : FS) (q : Path) : Nat :=
  fs.entries.foldl (fun a e => if underPath q e.1 then a + nodeSize e.2 else a) 0

/-- Modelled from the spec: Delete refuses the root directory, resolves
the target without dereferencing the final component, treats a missing
target as a successful no-op, and on success removes the subtree and
subtracts its apparent size from the disk counter; a symlink is removed
as the bare link and its target is never touched. -/
def Delete (s : Filesystem) (p : String) : Except FError Filesystem :=
  if joinClean s.root p = s.root then Except.error FError.cannotDeleteRoot
  else
    match safePathNoFollowLink s.root s.fs p with
    | none => Except.error FError.badPathResolution
    | some q =>
      match s.fs.lookup q with
      | none => Except.ok s
      | some _ =>
        Except.ok { s with fs := ⟨s.fs.entries.filter (fun e => !(underPath q e.1))⟩,
                           diskUsed := s.diskUsed - (subtreeSize s.fs q : Int) }

/-- Root used by the concrete scenarios, mirroring the temporary server
directory of the test harness. -/
def rootC : Path := ["tmp", "server"]

/-- Concrete disk state of the symlink test: a file outside the root, a
directory outside the root, and two links inside the root pointing at
them, exactly as TestFilesystem_Blocks_Symlinks builds it. -/
def fsC : FS := ⟨[
  (["tmp"], Node.dir),
  (["tmp", "server"], Node.dir),
  (["tmp", "server", "symlinked.txt"], Node.symlink ["tmp", "malicious.txt"]),
  (["tmp", "malicious.txt"], Node.file 16),
  (["tmp", "server", "external_dir"], Node.symlink ["tmp", "malicious_dir"]),
  (["tmp", "malicious_dir"], Node.dir)]⟩

/-- Filesystem value for the symlink scenario, unlimited quota. -/
def sC : Filesystem := ⟨rootC, fsC, 0, 0⟩

/-- State after deleting the escaping symlink in the concrete scenario. -/
def afterDeleteLink : Filesystem := ((Delete sC "symlinked.txt").toOption).getD sC

/-- Quota scenario of the write test: empty tree, limit 1024 bytes. -/
def sQuota : Filesystem := ⟨["srv"], ⟨[]⟩, 0, 1024⟩

/-- Copy scenario: a single source file of 12 bytes, already accounted
in the disk counter, unlimited quota. -/
def sCopy0 : Filesystem := ⟨["srv"], ⟨[(["srv", "source.txt"], Node.file 12)]⟩, 12, 0⟩

/-- Run one copy of source.txt, keeping the state on failure. -/
def copyStep (s : Filesystem) : Filesystem := ((Copy s "source.txt").toOption).getD s

/- ===== Embeddings translated from the Go sources under src/. ===== -/

/-- Power state string used by the environment package. -/
def offlineS : String := "offline"

/-- Power state string used by the environment package. -/
def startingS : String := "starting"

/-- Power state string used by the environment package. -/
def runningS : String := "running"

/-- Observable outcome of the per-server closure of rootCmdRun: whether
a start power action was issued, whether the daemon re-attached to the
process stream, and the state recorded by the final SetState call of
the closure. -/
structure ReconcileResult where
  issuedStart : Bool
  attached : Bool
  finalState : String
deriving DecidableEq

/-- Decision logic of the boot reconciliation closure in rootCmdRun
(cmd package): r is the answer of Environment.IsRunning with a missing
container treated as not running, st is the state cached on disk for
the uuid, and m is the in-memory IsRunning flag of the server object.
The first branch issues a best-effort start and then falls through to
the final SetState(offline) call; the second branch sets the state to
running, attaches, and returns; the last branch only records offline. -/
def rootCmdReconcile (r : Bool) (st : String) (m : Bool) : ReconcileResult :=
  if r = false ∧ (st = runningS ∨ st = startingS) then ⟨true, false, offlineS⟩
  else if r = true ∨ (r = false ∧ m = true) then ⟨false, true, runningS⟩
  else ⟨false, false, offlineS⟩

/-- Boot reconciliation as run for one server: rootCmdRun iterates over
every loaded server and never reads the suspended flag, so the result
is literally independent of it. -/
def rootCmdReconcileServer (susp : Bool) (r : Bool) (st : String) (m : Bool) : ReconcileResult :=
  rootCmdReconcile r st m

/-- The four valid power actions accepted by the router. -/
inductive PowerAction where
  | start
  | stop
  | restart
  | kill
deriving DecidableEq

/-- Outcome of the power endpoint for a valid action. -/
inductive PowerResponse where
  | suspendedRejected
  | accepted
deriving DecidableEq

/-- Suspension gate of postServerPower (router package): start and
restart on a suspended server are rejected with HTTP 400 before any
action is dispatched; every other valid request is accepted and the
action runs in the background. -/
def postServerPower (susp : Bool) (a : PowerAction) : PowerResponse :=
  if (a = PowerAction.start ∨ a = PowerAction.restart) ∧ susp = true then
    PowerResponse.suspendedRejected
  else PowerResponse.accepted

/-- Steps performed by deleteServer in the router package, in program
order. The file removal step is the spawning of the background
goroutine, so the HTTP call does not wait for the files. -/
inductive DeleteStep where
  | setSuspended
  | abortInstall
  | deleteArchive
  | destroyEvents
  | stopThrottler
  | cancelWebsockets
  | destroyEnvironment
  | scheduleFileRemoval
  | removeFromCollection
deriving DecidableEq

/-- Ordered step list of deleteServer, conditional on whether an
installation is currently running. -/
def deleteServerSteps (installing : Bool) : List DeleteStep :=
  [DeleteStep.setSuspended]
    ++ (if installing then [DeleteStep.abortInstall] else [])
    ++ [DeleteStep.deleteArchive, DeleteStep.destroyEvents, DeleteStep.stopThrottler,
        DeleteStep.cancelWebsockets, DeleteStep.destroyEnvironment,
        DeleteStep.scheduleFileRemoval, DeleteStep.removeFromCollection]

/-- Errors surfaced by the control-plane api client: a request error
carrying the HTTP status string, or any other transport error. -/
inductive ApiError where
  | request (status : String)
  | other (msg : String)
deriving DecidableEq

/-- Outcome of Server.Sync as seen by its caller. -/
inductive SyncOutcome where
  | doesNotExist
  | failed
  | synced
deriving DecidableEq

/-- Server.Sync (server package): fetch the configuration; a non
request error and a request error with a status other than 404 are
surfaced as plain failures; a request error with status 404 becomes the
serverDoesNotExist condition; otherwise SyncWithConfiguration runs and
its own success decides the result. -/
def syncServer (resp : Except ApiError Unit) (applyOk : Bool) : SyncOutcome :=
  match resp with
  | Except.error (ApiError.request st) =>
    if st = "404" then SyncOutcome.doesNotExist else SyncOutcome.failed
  | Except.error (ApiError.other _) => SyncOutcome.failed
  | Except.ok _ => if applyOk then SyncOutcome.synced else SyncOutcome.failed

/-- Container state as reported by ContainerInspect: the exit code is a
Go int and the OOM-killed flag a bool. -/
structure ContainerState where
  exitCode : Int
  oomKilled : Bool

/-- Inspection errors: the runtime reports the container as missing, or
some other failure. -/
inductive DockerError where
  | notFound
  | other (msg : String)
deriving DecidableEq

/-- Environment.ExitState (environment/docker package): a missing
container yields exit code 1 and not OOM-killed with no error; any
other inspect error is returned as an error; otherwise the exit code is
converted to uint32 and returned together with the OOM-killed flag. -/
def ExitState (inspect : Except DockerError ContainerState) : Except DockerError (Nat × Bool) :=
  match inspect with
  | Except.error DockerError.notFound => Except.ok (1, false)
  | Except.error e => Except.error e
  | Except.ok c => Except.ok (((c.exitCode % ((2 : Int) ^ 32)).toNat, c.oomKilled))

/-- Result of LoadDirectory (server package): the collection after the
call, whether the control-plane API was contacted, and the failure
message if any. -/
structure LoadResult where
  collection : List String
  contactedApi : Bool
  failure : Option String
deriving DecidableEq

/-- LoadDirectory (server/loader.go): with a non-empty global server
collection it returns an error at once, before the API request; with an
empty collection it fetches the configurations, a request failure is
surfaced, and otherwise each configuration that builds successfully is
added to the collection (a broken one is skipped). -/
def LoadDirectory (col : List String) (resp : Except ApiError (List (Option String))) : LoadResult :=
  if col ≠ [] then ⟨col, false, some "cannot call LoadDirectory with a non-nil collection"⟩
  else
    match resp with
    | Except.error _ => ⟨col, true, some "request failed"⟩
    | Except.ok cfgs => ⟨col ++ cfgs.filterMap id, true, none⟩

/-- Upper-casing as Go strings.ToUpper performs it on ASCII keys,
written over the character list so it evaluates inside the kernel. -/
def goToUpper (s : String) : String :=
  (s.toList.map Char.toUpper).asString

/-- Go strings.HasPrefix(s, pre), written over character lists so it
evaluates inside the kernel. -/
def goHasPre (s pre : String) : Bool :=
  s.toList.take pre.toList.length == pre.toList

/-- Inputs of Server.GetEnvironmentVariables: the configured timezone,
the invocation, the memory limit, the default mapping, and the
configured environment variables in the iteration order of the map. -/
structure EnvConfig where
  timezone : String
  invocation : String
  memoryLimit : Nat
  ip : String
  port : Nat
  envVars : List (String × String)

/-- The five built-in entries emitted first by
Server.GetEnvironmentVariables. -/
def builtinVars (c : EnvConfig) : List String :=
  ["TZ=" ++ c.timezone,
   "STARTUP=" ++ c.invocation,
   "SERVER_MEMORY=" ++ toString c.memoryLimit,
   "SERVER_IP=" ++ c.ip,
   "SERVER_PORT=" ++ toString c.port]

/-- One iteration of the labelled eloop of GetEnvironmentVariables: a
configured variable is skipped when its upper-cased key is a prefix of
any entry already in the output, and appended as KEY=value otherwise. -/
def envStep (out : List String) (kv : String × String) : List String :=
  if out.any (fun e => goHasPre e (goToUpper kv.1)) then out
  else out ++ [goToUpper kv.1 ++ "=" ++ kv.2]

/-- Server.GetEnvironmentVariables (server package): the five built-in
entries followed by the surviving configured variables. -/
def GetEnvironmentVariables (c : EnvConfig) : List String :=
  c.envVars.foldl envStep (builtinVars c)

/-- Concrete configuration exercising the prefix filter: server and tz
collide with built-in entries, a collides with the earlier emitted
configured entry A_B, and my_var survives. -/
def cfgW : EnvConfig := ⟨"UTC", "run", 512, "1.2.3.4", 25565,
  [("server", "x"), ("tz", "evil"), ("my_var", "ok"), ("a_b", "2"), ("a", "1")]⟩

/- ===== Theorems ===== -/

/-- C6: Sync returns the server-does-not-exist condition exactly when
the configuration fetch failed with a request error whose HTTP status
is 404; every other request error, every transport error, and every
error of the subsequent configuration application surface as an
ordinary failure. -/
theorem claim_C6 : ∀ (resp : Except Claws.ApiError Unit) (applyOk : Bool),
    Claws.syncServer resp applyOk = Claws.SyncOutcome.doesNotExist ↔
      resp = Except.error (Claws.ApiError.request "404") := by
  intro resp a
  cases resp with
  | error e =>
    cases e with
    | request st =>
      by_cases h : st = "404"
      · subst h
        simp [Claws.syncServer]
      · simp [Claws.syncServer, h]
    | other m => simp [Claws.syncServer]
  | ok u => cases a <;> simp [Claws.syncServer]

/-- C6 witness: a 404 request error at a concrete input produces the
does-not-exist outcome. -/
theorem claim_C6_witness :
    Claws.syncServer (Except.error (Claws.ApiError.request "404")) true =
      Claws.SyncOutcome.doesNotExist :=
  (claim_C6 (Except.error (Claws.ApiError.request "404")) true).mpr rfl

/-- C7: ExitState maps a missing container to exit code 1 with the OOM
flag false and no error, surfaces every other inspect error, and
otherwise returns the uint32 exit code together with the OOM flag. -/
theorem claim_C7 :
    Claws.ExitState (Except.error Claws.DockerError.notFound) = Except.ok (1, false) ∧
    (∀ m : String, Claws.ExitState (Except.error (Claws.DockerError.other m)) =
        Except.error (Claws.DockerError.other m)) ∧
    (∀ c : Claws.ContainerState, Claws.ExitState (Except.ok c) =
        Except.ok (((c.exitCode % ((2 : Int) ^ 32)).toNat, c.oomKilled))) :=
  ⟨rfl, fun _ => rfl, fun _ => rfl⟩

/-- C9: whenever the server collection is already non-empty,
LoadDirectory returns the error immediately, does not contact the
control-plane API and leaves the collection unchanged. -/
theorem claim_C9 : ∀ (col : List String) (resp : Except Claws.ApiError (List (Option String))),
    col ≠ [] →
    Claws.LoadDirectory col resp =
      ⟨col, false, some "cannot call LoadDirectory with a non-nil collection"⟩ := by
  intro col resp h
  simp [Claws.LoadDirectory, h]

/-- C9 witness: a concrete non-empty collection hits the guard. -/
theorem claim_C9_witness :
    Claws.LoadDirectory ["u1"] (Except.ok []) =
      ⟨["u1"], false, some "cannot call LoadDirectory with a non-nil collection"⟩ :=
  claim_C9 ["u1"] (Except.ok []) (by decide)

/-- C5 counterexample: the claim requires all websocket and event
subscribers to be unsubscribed before the throttler is stopped, but in
deleteServer the throttler timer is stopped before the websocket
sessions are cancelled. -/
theorem claim_C5_counterexample :
    (Claws.deleteServerSteps true).indexOf Claws.DeleteStep.stopThrottler <
      (Claws.deleteServerSteps true).indexOf Claws.DeleteStep.cancelWebsockets := by
  decide

/-- C5 (amended): deleting an instance performs, in order: set the
suspended flag, abort a running installation, delete the transfer
archive if present, destroy the event-bus subscribers, stop the console
throttler, cancel all websocket sessions, destroy the container
environment, schedule the asynchronous on-disk file removal (the HTTP
call does not wait for it), and remove the server from the collection. -/
theorem claim_C5_amended :
    Claws.deleteServerSteps true =
      [Claws.DeleteStep.setSuspended, Claws.DeleteStep.abortInstall,
       Claws.DeleteStep.deleteArchive, Claws.DeleteStep.destroyEvents,
       Claws.DeleteStep.stopThrottler, Claws.DeleteStep.cancelWebsockets,
       Claws.DeleteStep.destroyEnvironment, Claws.DeleteStep.scheduleFileRemoval,
       Claws.DeleteStep.removeFromCollection] ∧
    Claws.deleteServerSteps false =
      [Claws.DeleteStep.setSuspended,
       Claws.DeleteStep.deleteArchive, Claws.DeleteStep.destroyEvents,
       Claws.DeleteStep.stopThrottler, Claws.DeleteStep.cancelWebsockets,
       Claws.DeleteStep.destroyEnvironment, Claws.DeleteStep.scheduleFileRemoval,
       Claws.DeleteStep.removeFromCollection] := by
  decide

/-- C3 counterexample: with the container not running, a cached state
of offline, and the in-memory running flag set, the claim places the
input in its every-other-case bucket and demands that the state be set
to offline, but the reconciliation closure sets it to running and
re-attaches. -/
theorem claim_C3_counterexample :
    (Claws.rootCmdReconcile false Claws.offlineS true).finalState = Claws.runningS ∧
    (Claws.rootCmdReconcile false Claws.offlineS true).attached = true ∧
    Claws.runningS ≠ Claws.offlineS := by
  decide

/-- C3 (amended): during boot reconciliation, if the runtime reports
the container not running and the cached state is starting or running,
a best-effort start action is issued (and the closure then still
records offline in its final SetState call); if the container is
actually running, or it is not running but the in-memory state of the
instance reports running, the state is set to running and the stream is
re-attached; in every remaining case the state is set to offline. -/
theorem claim_C3_amended : ∀ (r : Bool) (st : String) (m : Bool),
    ((r = false ∧ (st = Claws.runningS ∨ st = Claws.startingS)) →
        Claws.rootCmdReconcile r st m = ⟨true, false, Claws.offlineS⟩) ∧
    (¬(r = false ∧ (st = Claws.runningS ∨ st = Claws.startingS)) → (r = true ∨ m = true) →
        Claws.rootCmdReconcile r st m = ⟨false, true, Claws.runningS⟩) ∧
    (¬(r = false ∧ (st = Claws.runningS ∨ st = Claws.startingS)) → ¬(r = true ∨ m = true) →
        Claws.rootCmdReconcile r st m = ⟨false, false, Claws.offlineS⟩) := by
  intro r st m
  refine ⟨?_, ?_, ?_⟩
  · intro h
    simp only [Claws.rootCmdReconcile, if_pos h]
  · intro h1 h2
    have hcond : r = true ∨ (r = false ∧ m = true) := by
      rcases h2 with h | h
      · exact Or.inl h
      · cases r
        · exact Or.inr ⟨rfl, h⟩
        · exact Or.inl rfl
    simp only [Claws.rootCmdReconcile]
    rw [if_neg h1, if_pos hcond]
  · intro h1 h2
    have hcond : ¬(r = true ∨ (r = false ∧ m = true)) := by
      rintro (h | ⟨h3, h4⟩)
      · exact h2 (Or.inl h)
      · exact h2 (Or.inr h4)
    simp only [Claws.rootCmdReconcile]
    rw [if_neg h1, if_neg hcond]

/-- C3 witness: a container that is gone while the cached state says
running triggers the best-effort start branch. -/
theorem claim_C3_witness :
    Claws.rootCmdReconcile false Claws.runningS false = ⟨true, false, Claws.offlineS⟩ :=
  (claim_C3_amended false Claws.runningS false).1 ⟨rfl, Or.inl rfl⟩

/-- C4 counterexample: boot reconciliation never consults the suspended
flag, so a suspended instance whose container is actually running has
its state set to running and is re-attached, and a suspended instance
with a cached running state and a stopped container still gets a start
action issued; both violate the claimed invariant. -/
theorem claim_C4_counterexample :
    Claws.rootCmdReconcileServer true true Claws.offlineS false = ⟨false, true, Claws.runningS⟩ ∧
    (Claws.rootCmdReconcileServer true false Claws.runningS false).issuedStart = true := by
  decide

/-- C4 (amended): the power endpoint rejects start and restart for a
suspended instance with HTTP 400 before dispatching any action, so no
power-action request moves a suspended instance toward starting or
running; boot reconciliation, however, does not consult the suspended
flag at all, so its behaviour is literally identical for suspended and
non-suspended instances. -/
theorem claim_C4_amended :
    (∀ (a : Claws.PowerAction) (susp : Bool), susp = true →
        (a = Claws.PowerAction.start ∨ a = Claws.PowerAction.restart) →
        Claws.postServerPower susp a = Claws.PowerResponse.suspendedRejected) ∧
    (∀ (s1 s2 r : Bool) (st : String) (m : Bool),
        Claws.rootCmdReconcileServer s1 r st m = Claws.rootCmdReconcileServer s2 r st m) := by
  refine ⟨?_, ?_⟩
  · intro a susp h1 h2
    simp only [Claws.postServerPower]
    rw [if_pos ⟨h2, h1⟩]
  · intro s1 s2 r st m
    rfl

/-- C4 witness: a start request against a concrete suspended instance
is rejected. -/
theorem claim_C4_witness :
    Claws.postServerPower true Claws.PowerAction.start = Claws.PowerResponse.suspendedRejected :=
  claim_C4_amended.1 Claws.PowerAction.start true rfl (Or.inl rfl)

/-- C1 counterexample: the claim requires every listed operation,
delete included, to fail with bad-path-resolution on a path whose
symlink-resolved target lies outside the root; in the concrete symlink
scenario of the test file the safe-path resolution of symlinked.txt
indeed fails, yet delete succeeds, removing the link itself. -/
theorem claim_C1_counterexample :
    Claws.SafePath Claws.rootC Claws.fsC "symlinked.txt" = none ∧
    Claws.Delete Claws.sC "symlinked.txt" ≠ Except.error Claws.FError.badPathResolution := by
  decide

/-- C1 (amended): every successful safe-path resolution lies inside the
root subtree; read, write, copy, chown, rename and mkdir fail with
bad-path-resolution whenever safe-path fails on their target, and a
failing operation returns no new state, so the tree outside the root is
untouched; the dot-dot escapes and the symlink escapes of the test file
all make safe-path fail; delete fails with bad-path-resolution when the
cleaned path escapes the root, but on an in-root symlink pointing
outside it succeeds, removes only the link, and leaves the outside
target untouched. -/
theorem claim_C1_amended :
    (∀ (R : Claws.Path) (fs : Claws.FS) (p : String) (q : Claws.Path),
        Claws.SafePath R fs p = some q → Claws.underPath R q = true) ∧
    (∀ (s : Claws.Filesystem) (p : String) (n : Nat),
        Claws.SafePath s.root s.fs p = none →
        Claws.Readfile s p = Except.error Claws.FError.badPathResolution ∧
        Claws.Writefile s p n = Except.error Claws.FError.badPathResolution ∧
        Claws.Copy s p = Except.error Claws.FError.badPathResolution ∧
        Claws.Chown s p = Except.error Claws.FError.badPathResolution) ∧
    (∀ (s : Claws.Filesystem) (pf pt : String),
        Claws.SafePath s.root s.fs pf = none →
        Claws.Rename s pf pt = Except.error Claws.FError.badPathResolution) ∧
    (∀ (s : Claws.Filesystem) (pf pt : String) (qf : Claws.Path),
        Claws.SafePath s.root s.fs pf = some qf →
        Claws.SafePath s.root s.fs pt = none →
        Claws.Rename s pf pt = Except.error Claws.FError.badPathResolution) ∧
    (∀ (s : Claws.Filesystem) (name parents : String),
        Claws.SafePath s.root s.fs (parents ++ "/" ++ name) = none →
        Claws.CreateDirectory s name parents = Except.error Claws.FError.badPathResolution) ∧
    (∀ (s : Claws.Filesystem) (p : String),
        Claws.joinClean s.root p ≠ s.root →
        Claws.safePathNoFollowLink s.root s.fs p = none →
        Claws.Delete s p = Except.error Claws.FError.badPathResolution) ∧
    (Claws.SafePath Claws.rootC Claws.fsC "../x" = none ∧
     Claws.SafePath Claws.rootC Claws.fsC "/../x" = none ∧
     Claws.SafePath Claws.rootC Claws.fsC "./a/../../x" = none ∧
     Claws.SafePath Claws.rootC Claws.fsC "symlinked.txt" = none ∧
     Claws.SafePath Claws.rootC Claws.fsC "external_dir/foo.txt" = none) ∧
    ((Claws.Delete Claws.sC "symlinked.txt").isOk = true ∧
     Claws.afterDeleteLink.fs.lookup ["tmp", "server", "symlinked.txt"] = none ∧
     Claws.afterDeleteLink.fs.lookup ["tmp", "malicious.txt"] = some (Claws.Node.file 16) ∧
     Claws.Delete Claws.sC "../x" = Except.error Claws.FError.badPathResolution) := by
  refine ⟨?_, ?_, ?_, ?_, ?_, ?_, by decide, by decide⟩
  · intro R fs p q h
    simp only [Claws.SafePath] at h
    split at h
    · rename_i hcond
      injection h with h2
      subst h2
      exact hcond
    · exact Option.noConfusion h
  · intro s p n h
    refine ⟨?_, ?_, ?_, ?_⟩
    · simp [Claws.Readfile, h]
    · simp [Claws.Writefile, h]
    · simp [Claws.Copy, h]
    · simp [Claws.Chown, h]
  · intro s pf pt h
    simp [Claws.Rename, h]
  · intro s pf pt qf h1 h2
    simp [Claws.Rename, h1, h2]
  · intro s name parents h
    simp [Claws.CreateDirectory, h]
  · intro s p h1 h2
    simp [Claws.Delete, h1, h2]

/-- C1 witness: the dot-dot escape fails a concrete read and the
symlink escape fails a concrete rename. -/
theorem claim_C1_witness :
    Claws.Readfile Claws.sC "../x" = Except.error Claws.FError.badPathResolution ∧
    Claws.Rename Claws.sC "symlinked.txt" "foo.txt" = Except.error Claws.FError.badPathResolution :=
  ⟨(claim_C1_amended.2.1 Claws.sC "../x" 0 (by decide)).1,
   claim_C1_amended.2.2.1 Claws.sC "symlinked.txt" "foo.txt" (by decide)⟩

/-- C2: on a filesystem with a positive disk limit and a resolvable
target that is not a directory, a write whose size delta would push the
counter past the limit fails with not-enough-disk-space and produces no
new state, so the counter is unchanged; a successful write moves the
counter by exactly the delta and changes neither the limit nor the
root. -/
theorem claim_C2 : ∀ (s : Claws.Filesystem) (p : String) (n : Nat) (q : Claws.Path),
    0 < s.diskLimit →
    Claws.SafePath s.root s.fs p = some q →
    s.fs.lookup q ≠ some Claws.Node.dir →
    ((s.diskLimit < s.diskUsed + (n : Int) - (Claws.oldSizeAt s q : Int) →
        Claws.Writefile s p n = Except.error Claws.FError.notEnoughDiskSpace) ∧
     (∀ s2 : Claws.Filesystem, Claws.Writefile s p n = Except.ok s2 →
        s2.diskUsed = s.diskUsed + (n : Int) - (Claws.oldSizeAt s q : Int) ∧
        s2.diskLimit = s.diskLimit ∧ s2.root = s.root)) := by
  intro s p n q hlim hsafe hdir
  constructor
  · intro hq
    simp only [Claws.Writefile, hsafe]
    rw [if_neg hdir, if_pos ⟨hlim, hq⟩]
  · intro s2 hok
    simp only [Claws.Writefile, hsafe] at hok
    rw [if_neg hdir] at hok
    by_cases hq : 0 < s.diskLimit ∧ s.diskLimit < s.diskUsed + (n : Int) - (Claws.oldSizeAt s q : Int)
    · rw [if_pos hq] at hok
      exact absurd hok (by simp)
    · rw [if_neg hq] at hok
      injection hok with h2
      subst h2
      exact ⟨rfl, rfl, rfl⟩

/-- C2 witness: the quota scenario of the write test, limit 1024 and a
write of 1025 bytes into an empty tree, fails with
not-enough-disk-space. -/
theorem claim_C2_witness :
    Claws.Writefile Claws.sQuota "test.txt" 1025 = Except.error Claws.FError.notEnoughDiskSpace :=
  (claim_C2 Claws.sQuota "test.txt" 1025 ["srv", "test.txt"]
    (by decide) (by decide) (by decide)).1 (by decide)

/-- C8: the copy target name is the bare copy suffix when free, and the
suffix numbered 1 on the first collision; concretely, two successive
copies of source.txt leave source.txt, source copy.txt and
source copy 1.txt on disk, with the disk counter at three times the
size of source.txt. -/
theorem claim_C8 :
    (∀ (fs : Claws.FS) (d : Claws.Path) (stem ext : String),
        fs.lookup (d ++ [Claws.candName stem ext 0]) = none →
        Claws.copyName fs d stem ext = Claws.candName stem ext 0) ∧
    (∀ (fs : Claws.FS) (d : Claws.Path) (stem ext : String),
        (fs.lookup (d ++ [Claws.candName stem ext 0])).isSome = true →
        fs.lookup (d ++ [Claws.candName stem ext 1]) = none →
        Claws.copyName fs d stem ext = Claws.candName stem ext 1) ∧
    Claws.candName "source" ".txt" 0 = "source copy.txt" ∧
    Claws.candName "source" ".txt" 1 = "source copy 1.txt" ∧
    (Claws.Copy Claws.sCopy0 "source.txt").isOk = true ∧
    (Claws.Copy (Claws.copyStep Claws.sCopy0) "source.txt").isOk = true ∧
    (Claws.copyStep (Claws.copyStep Claws.sCopy0)).fs.lookup ["srv", "source.txt"]
      = some (Claws.Node.file 12) ∧
    (Claws.copyStep (Claws.copyStep Claws.sCopy0)).fs.lookup ["srv", "source copy.txt"]
      = some (Claws.Node.file 12) ∧
    (Claws.copyStep (Claws.copyStep Claws.sCopy0)).fs.lookup ["srv", "source copy 1.txt"]
      = some (Claws.Node.file 12) ∧
    (Claws.copyStep (Claws.copyStep Claws.sCopy0)).diskUsed = 3 * 12 := by
  refine ⟨?_, ?_, by decide, by decide, by decide, by decide, by decide, by decide,
    by decide, by decide⟩
  · intro fs d stem ext h
    show Claws.copyNameGo fs d stem ext (Nat.succ (fs.entries.length + 1)) 0 = _
    simp only [Claws.copyNameGo]
    rw [if_pos h]
  · intro fs d stem ext h0 h1
    have h0x : ¬(fs.lookup (d ++ [Claws.candName stem ext 0]) = none) := by
      intro hc
      rw [hc] at h0
      exact absurd h0 (by decide)
    show Claws.copyNameGo fs d stem ext (Nat.succ (Nat.succ fs.entries.length)) 0 = _
    simp only [Claws.copyNameGo]
    rw [if_neg h0x, if_pos h1]

/-- C8 witness: in an empty directory the first copy of a.txt takes the
bare copy suffix. -/
theorem claim_C8_witness :
    Claws.copyName ⟨[]⟩ ["srv"] "a" ".txt" = Claws.candName "a" ".txt" 0 :=
  claim_C8.1 ⟨[]⟩ ["srv"] "a" ".txt" (by decide)

/-- C10 helper: folding the eloop step over any suffix of configured
variables appends only entries built from variables whose upper-cased
key is not a prefix of anything present when the variable was reached;
in particular nothing in the starting segment is ever dropped or
reordered. -/
theorem envFold_spec : ∀ (l : List (String × String)) (out : List String),
    ∃ rest, l.foldl Claws.envStep out = out ++ rest ∧
      ∀ str ∈ rest, ∃ kv, kv ∈ l ∧ str = Claws.goToUpper kv.1 ++ "=" ++ kv.2 ∧
        ∀ e ∈ out, Claws.goHasPre e (Claws.goToUpper kv.1) = false := by
  intro l
  induction l with
  | nil =>
    intro out
    exact ⟨[], by simp, by simp⟩
  | cons kv l ih =>
    intro out
    by_cases hc : out.any (fun e => Claws.goHasPre e (Claws.goToUpper kv.1)) = true
    · have hstep : Claws.envStep out kv = out := by
        simp only [Claws.envStep, if_pos hc]
      obtain ⟨rest, hr, hp⟩ := ih (Claws.envStep out kv)
      rw [hstep] at hr hp
      refine ⟨rest, by simpa [List.foldl_cons, hstep] using hr, ?_⟩
      intro str hs
      obtain ⟨kv2, hkv, he, hpre⟩ := hp str hs
      exact ⟨kv2, List.mem_cons_of_mem _ hkv, he, hpre⟩
    · have hstep : Claws.envStep out kv = out ++ [Claws.goToUpper kv.1 ++ "=" ++ kv.2] := by
        simp only [Claws.envStep, if_neg hc]
      have hall : ∀ e ∈ out, Claws.goHasPre e (Claws.goToUpper kv.1) = false := by
        intro e he
        by_contra hne
        apply hc
        refine List.any_eq_true.mpr ⟨e, he, ?_⟩
        cases hgoal : Claws.goHasPre e (Claws.goToUpper kv.1)
        · exact absurd hgoal hne
        · rfl
      obtain ⟨rest, hr, hp⟩ := ih (out ++ [Claws.goToUpper kv.1 ++ "=" ++ kv.2])
      refine ⟨(Claws.goToUpper kv.1 ++ "=" ++ kv.2) :: rest, ?_, ?_⟩
      · rw [List.foldl_cons, hstep, hr, List.append_assoc]
        rfl
      · intro str hs
        rcases List.mem_cons.mp hs with h | h
        · subst h
          exact ⟨kv, List.mem_cons_self _ _, rfl, hall⟩
        · obtain ⟨kv2, hkv, he, hpre⟩ := hp str h
          refine ⟨kv2, List.mem_cons_of_mem _ hkv, he, ?_⟩
          intro e he2
          exact hpre e (List.mem_append_left _ he2)

/-- C10: the five built-in entries come first; every further entry of
the output stems from a configured variable whose upper-cased key is
not a prefix of any built-in entry, so no configured value can override
a built-in variable and a key such as server is silently dropped; the
concrete configuration also shows a key dropped because its upper-cased
form prefixes an entry emitted earlier in the same loop. -/
theorem claim_C10 :
    (∀ c : Claws.EnvConfig,
        ∃ rest, Claws.GetEnvironmentVariables c = Claws.builtinVars c ++ rest ∧
          ∀ str ∈ rest, ∃ kv, kv ∈ c.envVars ∧
            str = Claws.goToUpper kv.1 ++ "=" ++ kv.2 ∧
            ∀ e ∈ Claws.builtinVars c, Claws.goHasPre e (Claws.goToUpper kv.1) = false) ∧
    Claws.GetEnvironmentVariables Claws.cfgW =
      Claws.builtinVars Claws.cfgW ++ ["MY_VAR=ok", "A_B=2"] := by
  constructor
  · intro c
    exact envFold_spec c.envVars (Claws.builtinVars c)
  · decide

/-- C10 witness: the characterization applied to the concrete
configuration. -/
theorem claim_C10_witness :
    ∃ rest, Claws.GetEnvironmentVariables Claws.cfgW = Claws.builtinVars Claws.cfgW ++ rest ∧
      ∀ str ∈ rest, ∃ kv, kv ∈ Claws.cfgW.envVars ∧
        str = Claws.goToUpper kv.1 ++ "=" ++ kv.2 ∧
        ∀ e ∈ Claws.builtinVars Claws.cfgW, Claws.goHasPre e (Claws.goToUpper kv.1) = false :=
  claim_C10.1 Claws.cfgW

end Claws
